import Mathlib

/-!
Verification of the Front-to-Gmail migration engine.

Shallow embedding of the TypeScript sources:
  src/utils/mapper.ts   (label sanitization, conversation mapping)
  src/config.ts         (both historical variants of the configuration loader)
  src/api/front.ts      (retry policy of the source client)
  src/api/gmail.ts      (retry policy, label cache, read-only write guard)
  src/index.ts          (orchestrator: batching, per-item state machine, report)

Strings are modelled via their character lists; JavaScript string trimming is
modelled with the usual ASCII whitespace predicate, and per-character
upper/lower casing with the ASCII case maps, which agree with JavaScript on
every character the program manipulates.
-/

set_option autoImplicit false

namespace FrontMigration

/-! ## String helpers shared by the embedding -/

/-- Whitespace predicate modelling JavaScript String.prototype.trim. -/
def jsWhitespace (c : Char) : Bool := c.isWhitespace

/-- Character-list uppercase, modelling String.prototype.toUpperCase. -/
def upperChars (l : List Char) : List Char := l.map Char.toUpper

/-- String lowercase, modelling String.prototype.toLowerCase. -/
def lowerStr (s : String) : String := ⟨s.data.map Char.toLower⟩

/-- Trim of a character list: drop whitespace from both ends. -/
def trimChars (l : List Char) : List Char :=
  ((l.dropWhile jsWhitespace).reverse.dropWhile jsWhitespace).reverse

/-- JavaScript truthy-or-default on an optional environment string:
the empty string counts as absent (`v || d`). -/
def orDefault (v : Option String) (d : String) : String :=
  match v with
  | some s => if s = "" then d else s
  | none => d

/-! ## Label sanitization (src/utils/mapper.ts, ConversationMapper.sanitizeLabel) -/

/-- The reserved Gmail system label names listed in sanitizeLabel. -/
def reserved : List String :=
  ["INBOX", "SPAM", "TRASH", "UNREAD", "STARRED", "IMPORTANT", "SENT", "DRAFT"]

/-- The same reserved set, as character lists. -/
def reservedLabels : List (List Char) := reserved.map String.data

/-- Step (a) of sanitizeLabel: label.replace of every forward or back slash
by a hyphen. -/
def replaceSlashes (l : List Char) : List Char :=
  l.map fun c => if c = '/' ∨ c = '\\' then '-' else c

/-- Step (b) of sanitizeLabel: removal of a single leading caret
(the regex anchored at the start matches at most once). -/
def stripCaret (l : List Char) : List Char :=
  match l with
  | [] => []
  | c :: rest => if c = '^' then rest else c :: rest

/-- The "sanitized" local variable of sanitizeLabel before the reserved-word
and namespace-prefix decisions: slashes replaced, caret stripped, trimmed. -/
def presanitize (l : List Char) : List Char := trimChars (stripCaret (replaceSlashes l))

/-- ConversationMapper.sanitizeLabel on character lists: after preprocessing,
a case-insensitively reserved name receives the "Front-" prefix; otherwise the
name is nested under "Front/" unless it already starts with that prefix. -/
def sanitizeChars (l : List Char) : List Char :=
  let s := presanitize l
  if upperChars s ∈ reservedLabels then "Front-".data ++ s
  else if "Front/".data.isPrefixOf s then s
  else "Front/".data ++ s

/-- ConversationMapper.sanitizeLabel. -/
def sanitizeLabel (s : String) : String := ⟨sanitizeChars s.data⟩

/-- The two status labels exported by src/utils/mapper.ts. -/
def STATUS_LABEL_ARCHIVED : String := "Front/Status/Archived"

/-- The inbox status label exported by src/utils/mapper.ts. -/
def STATUS_LABEL_INBOX : String := "Front/Status/Inbox"

/-! ## Configuration loader (src/config.ts, both variants kept in the repo) -/

/-- Environment variables read by the configuration loaders.  A `none` field
is an unset variable. -/
structure EnvVars where
  FRONT_API_KEY : Option String := none
  FRONT_API_BASE_URL : Option String := none
  GOOGLE_CREDENTIALS_PATH : Option String := none
  GOOGLE_TOKEN_PATH : Option String := none
  BATCH_SIZE : Option String := none
  DRY_RUN : Option String := none
  LOG_LEVEL : Option String := none
  SKIP_ARCHIVED : Option String := none
  FRONT_INBOX_ID : Option String := none
deriving Repr

/-- Log levels of src/utils/logger. -/
inductive LogLevel where
  | error
  | warn
  | info
  | debug
deriving DecidableEq, Repr

/-- getLogLevel: case-insensitive switch with default INFO. -/
def getLogLevel (v : Option String) : LogLevel :=
  match v with
  | none => .info
  | some s =>
      if lowerStr s = "error" then .error
      else if lowerStr s = "warn" then .warn
      else if lowerStr s = "debug" then .debug
      else .info

/-- Model of JavaScript parseInt(s, 10): skip leading whitespace, accept one
optional sign, read the longest decimal-digit prefix; `none` models NaN. -/
def parseIntJs10 (s : String) : Option Int :=
  let l := s.data.dropWhile jsWhitespace
  let signAndRest : Int × List Char :=
    match l with
    | '-' :: t => (-1, t)
    | '+' :: t => (1, t)
    | _ => (1, l)
  let digits := signAndRest.2.takeWhile Char.isDigit
  if digits = [] then none
  else some (signAndRest.1 * (digits.foldl (fun acc c => acc * 10 + (c.toNat - '0'.toNat)) 0 : Nat))

/-- Migration settings shared by both configuration variants.  `batchSize` is
`none` when parseInt produced NaN. -/
structure MigrationSettings where
  batchSize : Option Int
  dryRun : Bool
  logLevel : LogLevel
  skipArchived : Bool
  inboxId : Option String
deriving DecidableEq, Repr

/-- Configuration produced by the legacy loader (file-based Google
credentials).  Path absolutization is a filesystem operation and is kept as
the raw configured strings here. -/
structure ConfigLegacy where
  apiKey : String
  baseUrl : String
  credentialsPath : String
  tokenPath : String
  migration : MigrationSettings
deriving DecidableEq, Repr

/-- Configuration produced by the keychain-era loader (no Google file paths). -/
structure ConfigKeychain where
  apiKey : String
  baseUrl : String
  migration : MigrationSettings
deriving DecidableEq, Repr

/-- Dry-run flag of the legacy loader: DRY_RUN strictly equal to "true". -/
def dryRunLegacy (v : Option String) : Bool := v == some "true"

/-- Dry-run flag of the keychain-era loader: anything other than a
case-insensitive "false" (in particular an unset variable) is a dry run. -/
def dryRunKeychain (v : Option String) : Bool := !(lowerStr (v.getD "") == "false")

/-- loadConfig of the legacy variant (src/unnamed/part_008, first document):
requires FRONT_API_KEY, defaults BATCH_SIZE to "10", parses it unchecked,
and sets dryRun only when DRY_RUN is exactly "true". -/
def loadConfigLegacy (env : EnvVars) : Except String ConfigLegacy :=
  let apiKey := env.FRONT_API_KEY.getD ""
  if apiKey = "" then
    .error "FRONT_API_KEY is required. Please set it in your .env file."
  else
    .ok
      { apiKey := apiKey
        baseUrl := orDefault env.FRONT_API_BASE_URL "https://api2.frontapp.com"
        credentialsPath := orDefault env.GOOGLE_CREDENTIALS_PATH "./credentials.json"
        tokenPath := orDefault env.GOOGLE_TOKEN_PATH "./token.json"
        migration :=
          { batchSize := parseIntJs10 (orDefault env.BATCH_SIZE "10")
            dryRun := dryRunLegacy env.DRY_RUN
            logLevel := getLogLevel env.LOG_LEVEL
            skipArchived := env.SKIP_ARCHIVED == some "true"
            inboxId := env.FRONT_INBOX_ID } }

/-- loadConfig of the keychain-era variant (src/unnamed/part_008, second
document): same shape without Google paths, and dryRun defaults to true. -/
def loadConfigKeychain (env : EnvVars) : Except String ConfigKeychain :=
  let apiKey := env.FRONT_API_KEY.getD ""
  if apiKey = "" then
    .error "FRONT_API_KEY is required. Please set it in your .env file."
  else
    .ok
      { apiKey := apiKey
        baseUrl := orDefault env.FRONT_API_BASE_URL "https://api2.frontapp.com"
        migration :=
          { batchSize := parseIntJs10 (orDefault env.BATCH_SIZE "10")
            dryRun := dryRunKeychain env.DRY_RUN
            logLevel := getLogLevel env.LOG_LEVEL
            skipArchived := env.SKIP_ARCHIVED == some "true"
            inboxId := env.FRONT_INBOX_ID } }

/-! ## Batch partitioning (src/index.ts, FrontToGmailMigrator.createBatches) -/

/-- Model of Array.prototype.slice with integer arguments: negative indices
count from the end, both ends are clamped to the array bounds. -/
def sliceJs {α : Type} (l : List α) (start stop : Int) : List α :=
  let len : Int := l.length
  let s := if start < 0 then max (len + start) 0 else min start len
  let e := if stop < 0 then max (len + stop) 0 else min stop len
  (l.take e.toNat).drop s.toNat

/-- One step of the createBatches for-loop (index i, step batchSize), with
explicit fuel: `none` means the fuel ran out while the loop was still
running, so the loop does not terminate within that many iterations. -/
def cbGo {α : Type} (items : List α) (batchSize : Int) : Nat → Int → Option (List (List α))
  | 0, _ => none
  | fuel + 1, i =>
      if i < (items.length : Int) then
        match cbGo items batchSize fuel (i + batchSize) with
        | none => none
        | some rest => some (sliceJs items i (i + batchSize) :: rest)
      else some []

/-- createBatches: the loop needs at most items.length iterations when it
terminates at all, so items.length + 1 units of fuel decide it. -/
def createBatches {α : Type} (items : List α) (batchSize : Int) : Option (List (List α)) :=
  cbGo items batchSize (items.length + 1) 0

/-! ## Retry policy (src/api/front.ts and src/api/gmail.ts, withRetry) -/

/-- Shape of an error caught by FrontClient.withRetry: HTTP status of the
response, transport error code, error message, and the provider message
found at response.data._error.message. -/
structure FrontErr where
  status : Option Nat
  code : Option String
  message : String
  dataMessage : Option String
deriving DecidableEq, Repr

/-- FrontClient.isRetriableError: 429, any 5xx status, or one of the listed
transient connection codes (an empty code string is falsy and ignored). -/
def frontIsRetriable (e : FrontErr) : Bool :=
  if e.status = some 429 then true
  else if (match e.status with | some s => decide (500 ≤ s) | none => false) then true
  else if (match e.code with
           | some c => c ≠ "" && (c ∈ ["ECONNRESET", "ETIMEDOUT", "ENOTFOUND", "EAI_AGAIN"])
           | none => false) then true
  else false

/-- Message used when a Front 401 is re-signalled: the provider message when
present and non-empty, otherwise "Unauthorized". -/
def frontAuthMsg (e : FrontErr) : String :=
  match e.dataMessage with
  | some m => if m = "" then "Unauthorized" else m
  | none => "Unauthorized"

/-- Error message thrown by FrontClient.withRetry when it gives up:
a 401 is wrapped into a distinct FRONT_AUTH_401 error, anything else is
re-thrown unchanged. -/
def frontGiveUp (e : FrontErr) : String :=
  if e.status = some 401 then "FRONT_AUTH_401: " ++ frontAuthMsg e
  else e.message

/-- FrontClient.withRetry as a function of the per-attempt outcomes `runs`
and the jitter drawn before each sleep.  Returns the final outcome, the
number of invocations of the wrapped call, and the backoff delays slept.
The fuel equals maxAttempts - attempt on every reachable call, so the
fuel-exhausted branch mirrors the unreachable throw after the while loop. -/
def frontRetryGo {α : Type} (runs : Nat → Except FrontErr α) (jitter : Nat → Nat)
    (maxAttempts : Nat) : Nat → Nat → Except String α × Nat × List Nat
  | 0, _ => (.error "front retry loop exhausted", 0, [])
  | fuel + 1, attempt =>
      if attempt < maxAttempts then
        match runs attempt with
        | .ok v => (.ok v, 1, [])
        | .error e =>
            if maxAttempts ≤ attempt + 1 ∨ frontIsRetriable e = false then
              (.error (frontGiveUp e), 1, [])
            else
              let d := 500 * 2 ^ attempt + jitter attempt
              let rest := frontRetryGo runs jitter maxAttempts fuel (attempt + 1)
              (rest.1, rest.2.1 + 1, d :: rest.2.2)
      else (.error "front retry loop exhausted", 0, [])

/-- FrontClient.withRetry at its default of 3 attempts. -/
def frontWithRetry {α : Type} (runs : Nat → Except FrontErr α) (jitter : Nat → Nat) :
    Except String α × Nat × List Nat :=
  frontRetryGo runs jitter 3 3 0

/-- Shape of an error caught by GmailClient.withRetry: error.code, the
response status used as its fallback, and the first provider reason code. -/
structure GmailErr where
  code : Option Nat
  respStatus : Option Nat
  reason : Option String
deriving DecidableEq, Repr

/-- The status GmailClient.isRetriableError works with:
error.code, falling back to response.status when code is absent or falsy. -/
def gmailStatusOf (e : GmailErr) : Option Nat :=
  match e.code with
  | some c => if c = 0 then e.respStatus else some c
  | none => e.respStatus

/-- GmailClient.isRetriableError: 429 or a provider rate-limit reason code,
or any truthy status of 500 and above. -/
def gmailIsRetriable (e : GmailErr) : Bool :=
  let status := gmailStatusOf e
  if status = some 429 ∨ e.reason = some "rateLimitExceeded" ∨
      e.reason = some "userRateLimitExceeded" then true
  else if (match status with | some s => s ≠ 0 && decide (500 ≤ s) | none => false) then true
  else false

/-- GmailClient.withRetry: same loop as the Front client, but the error is
re-thrown unchanged (no auth wrapping).  The fuel-exhausted error value is a
sentinel for the unreachable throw after the loop. -/
def gmailRetryGo {α : Type} (runs : Nat → Except GmailErr α) (jitter : Nat → Nat)
    (maxAttempts : Nat) : Nat → Nat → Except GmailErr α × Nat × List Nat
  | 0, _ => (.error ⟨none, none, none⟩, 0, [])
  | fuel + 1, attempt =>
      if attempt < maxAttempts then
        match runs attempt with
        | .ok v => (.ok v, 1, [])
        | .error e =>
            if maxAttempts ≤ attempt + 1 ∨ gmailIsRetriable e = false then
              (.error e, 1, [])
            else
              let d := 500 * 2 ^ attempt + jitter attempt
              let rest := gmailRetryGo runs jitter maxAttempts fuel (attempt + 1)
              (rest.1, rest.2.1 + 1, d :: rest.2.2)
      else (.error ⟨none, none, none⟩, 0, [])

/-- GmailClient.withRetry at its default of 3 attempts. -/
def gmailWithRetry {α : Type} (runs : Nat → Except GmailErr α) (jitter : Nat → Nat) :
    Except GmailErr α × Nat × List Nat :=
  gmailRetryGo runs jitter 3 3 0

/-! ## Source data model (src/api/front.ts interfaces) -/

/-- FrontConversation.status, a closed union in the source. -/
inductive FrontStatus where
  | archived
  | unarchived
  | deleted
  | spam
deriving DecidableEq, Repr

/-- FrontMessage.type. -/
inductive FrontMsgType where
  | email
  | sms
  | custom
deriving DecidableEq, Repr

/-- FrontRecipient, narrowed to its handle (the optional display name is
never read by the migration engine). -/
structure FrontRecipient where
  handle : String
deriving DecidableEq, Repr

/-- FrontMessage as consumed by the mapper: channel type, sender, recipient
list, and the optional metadata.headers message-id entry (the in-reply-to
and references headers are never read). -/
structure FrontMessage where
  type : FrontMsgType
  sender : FrontRecipient
  recipients : List FrontRecipient
  messageIdHeader : Option String
deriving DecidableEq, Repr

/-- FrontConversation as consumed by the mapper; tags are narrowed to their
names (tag ids are never read), and an absent messages array is the empty
list. -/
structure FrontConversation where
  id : String
  subject : String
  status : FrontStatus
  tags : List String
  messages : List FrontMessage
  created_at : Int
deriving DecidableEq, Repr

/-! ## Conversation mapping (src/utils/mapper.ts, mapConversation) -/

/-- MigrationItem.  The createdAt field carries the raw epoch value; its
rendering through the Date object is not modelled. -/
structure MigrationItem where
  frontConversationId : String
  subject : String
  isArchived : Bool
  labels : List String
  gmailMessageId : Option String
  emailAddresses : List String
  createdAt : Int
deriving DecidableEq, Repr

/-- Insertion into a JavaScript Set modelled on lists: insertion order kept,
duplicates ignored. -/
def addUnique (l : List String) (s : String) : List String :=
  if s ∈ l then l else l ++ [s]

/-- Removal of a single leading angle bracket and a single trailing angle
bracket, modelling the replace of the anchored regex on the message id. -/
def stripAngleChars (l : List Char) : List Char :=
  let l1 := match l with
    | '<' :: t => t
    | other => other
  if l1.getLast? = some '>' then l1.dropLast else l1

/-- String form of stripAngleChars. -/
def stripAngles (s : String) : String := ⟨stripAngleChars s.data⟩

/-- Truthiness of the optional message-id header: present and non-empty. -/
def headerTruthy (h : Option String) : Bool :=
  match h with
  | some s => s ≠ ""
  | none => false

/-- ConversationMapper.mapConversation: sanitize each tag name, archive flag
iff the status is exactly archived, email addresses collected from
email-channel messages in order, and the cross-system identifier taken from
the first email-channel message carrying a truthy message-id header. -/
def mapConversation (conv : FrontConversation) : MigrationItem :=
  let labels := conv.tags.map sanitizeLabel
  let isArchived := conv.status == .archived
  let emailAddresses := conv.messages.foldl
    (fun acc m =>
      if m.type == .email then
        m.recipients.foldl (fun a r => addUnique a r.handle) (addUnique acc m.sender.handle)
      else acc) []
  let gmailMessageId :=
    match conv.messages.find? (fun m => m.type == .email && headerTruthy m.messageIdHeader) with
    | some m =>
        match m.messageIdHeader with
        | some s => some (stripAngles s)
        | none => none
    | none => none
  { frontConversationId := conv.id
    subject := if conv.subject = "" then "(no subject)" else conv.subject
    isArchived := isArchived
    labels := labels
    gmailMessageId := gmailMessageId
    emailAddresses := emailAddresses
    createdAt := conv.created_at }

/-! ## Gmail client model (src/api/gmail.ts)

Each operation is modelled after the retry layer: the environment oracles
return the effective outcome of the underlying rate-limited, retried network
call, and every performed network call is recorded in a trace. -/

/-- A Gmail message as consumed by the orchestrator. -/
structure GmailMsg where
  id : String
  threadId : String
deriving DecidableEq, Repr

/-- A network call against the Gmail API.  Method-level mutating operations
are exactly those that issue some of the last four call kinds. -/
inductive Call where
  | search (q : String)
  | fetch (id : String)
  | labelsList
  | labelsCreate (name : String)
  | threadsModify (threadId : String) (addLabelIds removeLabelIds : List String)
  | messagesModify (id : String) (addLabelIds removeLabelIds : List String)
  | messagesBatchModify (ids : List String) (addLabelIds removeLabelIds : List String)
deriving DecidableEq, Repr

/-- Whether a network call writes to the mailbox. -/
def Call.isMutating : Call → Bool
  | .labelsCreate _ => true
  | .threadsModify _ _ _ => true
  | .messagesModify _ _ _ => true
  | .messagesBatchModify _ _ _ => true
  | _ => false

/-- The label cache: lowercased label name to label id, most recent entry
first (Map.set overwrites, Map.get reads the latest entry).  The cached
label record is narrowed to its id, the only field the orchestrator reads. -/
def Cache := List (String × String)

/-- Map.get on the label cache. -/
def cacheGet (c : Cache) (k : String) : Option String :=
  (List.find? (fun e => e.1 == k) c).map (fun e => e.2)

/-- Map.set on the label cache. -/
def cacheSet (c : Cache) (k v : String) : Cache := (k, v) :: c

/-- The identifiers a list of label names resolves to when every name is
already cached; `none` as soon as some name is absent. -/
def cachedIds (c : Cache) : List String → Option (List String)
  | [] => some []
  | n :: rest =>
      match cacheGet c (lowerStr n), cachedIds c rest with
      | some i, some is => some (i :: is)
      | _, _ => none

/-- Environment of effective Gmail call outcomes; an error value carries the
message of the exception escaping the retry wrapper. -/
structure GmailEnv where
  searchIds : String → Except String (List String)
  message : String → Except String GmailMsg
  labelsList : Except String (List (String × String))
  createId : String → Except String String
  modifyThreadRes : String → Except String Unit

/-- Error raised by GmailClient.ensureWritable for a given operation name. -/
def blockedWrite (operation : String) : String :=
  "Blocked write: " ++ operation ++ " while in read-only (dry run) mode"

/-- GmailClient.getLabels cache population: every listed label with truthy
id and name is stored under its lowercased name. -/
def populateCache (c : Cache) (labels : List (String × String)) : Cache :=
  labels.foldl
    (fun acc lbl => if lbl.1 ≠ "" ∧ lbl.2 ≠ "" then cacheSet acc (lowerStr lbl.2) lbl.1 else acc) c

/-- GmailClient.createLabel: write-guard first, then the cache, then one
labels.create call.  The 409-conflict recovery (re-list and re-read) is not
modelled; the environment reports the effective outcome of the creation. -/
def createLabelM (ro : Bool) (env : GmailEnv) (c : Cache) (name : String) :
    Except String String × Cache × List Call :=
  if ro then (.error (blockedWrite "labels.create"), c, [])
  else
    match cacheGet c (lowerStr name) with
    | some id => (.ok id, c, [])
    | none =>
        match env.createId name with
        | .ok id => (.ok id, cacheSet c (lowerStr name) id, [.labelsCreate name])
        | .error e => (.error e, c, [.labelsCreate name])

/-- The createLabel loop shared by ensureLabels and the orchestrator live
branch: resolve each name in order, threading the cache and stopping at the
first failure. -/
def resolveLabelsGo (ro : Bool) (env : GmailEnv) :
    Cache → List String → Except String (List String) × Cache × List Call
  | c, [] => (.ok [], c, [])
  | c, name :: rest =>
      match createLabelM ro env c name with
      | (.error e, c1, t1) => (.error e, c1, t1)
      | (.ok id, c1, t1) =>
          match resolveLabelsGo ro env c1 rest with
          | (.error e, c2, t2) => (.error e, c2, t1 ++ t2)
          | (.ok ids, c2, t2) => (.ok (id :: ids), c2, t1 ++ t2)

/-- GmailClient.ensureLabels: write-guard, one labels.list call populating
the cache, then createLabel on every requested name. -/
def ensureLabelsM (ro : Bool) (env : GmailEnv) (c : Cache) (names : List String) :
    Except String (List String) × Cache × List Call :=
  if ro then (.error (blockedWrite "labels.ensure"), c, [])
  else
    match env.labelsList with
    | .error e => (.error e, c, [.labelsList])
    | .ok lbls =>
        match resolveLabelsGo ro env (populateCache c lbls) names with
        | (r, c1, t) => (r, c1, .labelsList :: t)

/-- GmailClient.modifyThread: write-guard, then one threads.modify call. -/
def modifyThreadM (ro : Bool) (env : GmailEnv) (threadId : String)
    (addLabelIds removeLabelIds : List String) : Except String Unit × List Call :=
  if ro then (.error (blockedWrite "threads.modify"), [])
  else
    match env.modifyThreadRes threadId with
    | .ok _ => (.ok (), [.threadsModify threadId addLabelIds removeLabelIds])
    | .error e => (.error e, [.threadsModify threadId addLabelIds removeLabelIds])

/-- GmailClient.modifyMessage: write-guard, then one messages.modify call.
The environment outcome is shared with thread modification keyed by id. -/
def modifyMessageM (ro : Bool) (env : GmailEnv) (id : String)
    (addLabelIds removeLabelIds : List String) : Except String Unit × List Call :=
  if ro then (.error (blockedWrite "messages.modify"), [])
  else
    match env.modifyThreadRes id with
    | .ok _ => (.ok (), [.messagesModify id addLabelIds removeLabelIds])
    | .error e => (.error e, [.messagesModify id addLabelIds removeLabelIds])

/-- Chunks of size n + 1, modelling the slice loop of batchModify with its
constant positive chunk size. -/
def chunksOfSucc {α : Type} (n : Nat) : List α → List (List α)
  | [] => []
  | a :: l => (a :: l.take n) :: chunksOfSucc n (l.drop n)
termination_by l => l.length
decreasing_by simp [List.length_drop]; omega

/-- GmailClient.batchModifyMessages: write-guard, empty-list early return,
then one messages.batchModify call per chunk of 1000 ids.  Call outcomes are
collapsed to success since no claim depends on a batch-modify failure. -/
def batchModifyMessagesM (ro : Bool) (messageIds : List String)
    (addLabelIds removeLabelIds : List String) : Except String Unit × List Call :=
  if ro then (.error (blockedWrite "messages.batchModify"), [])
  else if messageIds = [] then (.ok (), [])
  else
    (.ok (),
      (chunksOfSucc 999 messageIds).map
        (fun chunk => .messagesBatchModify chunk addLabelIds removeLabelIds))

/-- GmailClient.getMessageByMessageId: one rfc822msgid search (specialised
to its single page at maxResults 1), then messages.get on the first hit. -/
def getMessageByMessageIdM (env : GmailEnv) (mid : String) :
    Except String (Option GmailMsg) × List Call :=
  let q := "rfc822msgid:" ++ mid
  match env.searchIds q with
  | .error e => (.error e, [.search q])
  | .ok [] => (.ok none, [.search q])
  | .ok (m :: _) =>
      match env.message m with
      | .error e => (.error e, [.search q, .fetch m])
      | .ok msg => (.ok (some msg), [.search q, .fetch m])

/-! ## Orchestrator (src/index.ts, FrontToGmailMigrator) -/

/-- Migration options read by the orchestrator.  The batch size is the
integer parsed (unchecked) by the configuration loader. -/
structure MigConfig where
  dryRun : Bool
  skipArchived : Bool
  batchSize : Int
deriving DecidableEq, Repr

/-- ReportRow.matchMethod. -/
inductive MatchMethod where
  | messageId
  | noMatch
deriving DecidableEq, Repr

/-- ReportRow.action. -/
inductive Action where
  | applied
  | dry_run
  | skipped
  | no_match
  | failed
deriving DecidableEq, Repr

/-- ReportRow of src/index.ts.  createdAt carries the raw epoch value
(toISOString rendering not modelled); counters of MigrationStats are not
modelled since no claim mentions them. -/
structure ReportRow where
  frontConversationId : String
  subject : String
  createdAt : Int
  isArchived : Bool
  matchMethod : MatchMethod
  gmailResults : Nat
  gmailMessageId : Option String
  threadId : Option String
  labelsToAdd : List String
  labelsToRemove : List String
  action : Action
  reason : Option String
deriving DecidableEq, Repr

/-- Reason string of a caught per-item error: its message, or "unknown" when
the message is falsy. -/
def failReason (e : String) : String := if e = "" then "unknown" else e

/-- FrontToGmailMigrator.processMigrationItem: the per-item state machine.
Returns the report row pushed for the item, the updated label cache of the
Gmail client, and the trace of network calls made on the item's behalf.
The read-only flag of the client is the dry-run flag it was constructed
with.  Every branch, the catch included, pushes exactly one row. -/
def processMigrationItem (cfg : MigConfig) (env : GmailEnv) (c : Cache)
    (item : MigrationItem) : ReportRow × Cache × List Call :=
  match item.gmailMessageId with
  | none =>
      ({ frontConversationId := item.frontConversationId
         subject := item.subject
         createdAt := item.createdAt
         isArchived := item.isArchived
         matchMethod := .noMatch
         gmailResults := 0
         gmailMessageId := none
         threadId := none
         labelsToAdd := []
         labelsToRemove := []
         action := .skipped
         reason := some "missing_message_id" }, c, [])
  | some mid =>
      if cfg.skipArchived ∧ item.isArchived then
        ({ frontConversationId := item.frontConversationId
           subject := item.subject
           createdAt := item.createdAt
           isArchived := item.isArchived
           matchMethod := if item.gmailMessageId.isSome then .messageId else .noMatch
           gmailResults := 0
           gmailMessageId := none
           threadId := none
           labelsToAdd := []
           labelsToRemove := []
           action := .skipped
           reason := some "skip_archived=true" }, c, [])
      else
        match getMessageByMessageIdM env mid with
        | (.error e, t) =>
            ({ frontConversationId := item.frontConversationId
               subject := item.subject
               createdAt := item.createdAt
               isArchived := item.isArchived
               matchMethod := if item.gmailMessageId.isSome then .messageId else .noMatch
               gmailResults := 0
               gmailMessageId := none
               threadId := none
               labelsToAdd := []
               labelsToRemove := []
               action := .failed
               reason := some (failReason e) }, c, t)
        | (.ok none, t) =>
            ({ frontConversationId := item.frontConversationId
               subject := item.subject
               createdAt := item.createdAt
               isArchived := item.isArchived
               matchMethod := .messageId
               gmailResults := 0
               gmailMessageId := none
               threadId := none
               labelsToAdd := []
               labelsToRemove := []
               action := .no_match
               reason := none }, c, t)
        | (.ok (some msg), t) =>
            if cfg.dryRun then
              let statusLabel := if item.isArchived then STATUS_LABEL_ARCHIVED else STATUS_LABEL_INBOX
              let opposite := if item.isArchived then STATUS_LABEL_INBOX else STATUS_LABEL_ARCHIVED
              ({ frontConversationId := item.frontConversationId
                 subject := item.subject
                 createdAt := item.createdAt
                 isArchived := item.isArchived
                 matchMethod := .messageId
                 gmailResults := 1
                 gmailMessageId := some msg.id
                 threadId := some msg.threadId
                 labelsToAdd := item.labels ++ [statusLabel]
                 labelsToRemove := [opposite]
                 action := .dry_run
                 reason := none }, c, t)
            else
              let statusLabel := if item.isArchived then STATUS_LABEL_ARCHIVED else STATUS_LABEL_INBOX
              let opposite := if item.isArchived then STATUS_LABEL_INBOX else STATUS_LABEL_ARCHIVED
              match resolveLabelsGo cfg.dryRun env c (item.labels ++ [statusLabel]) with
              | (.error e, c1, t1) =>
                  ({ frontConversationId := item.frontConversationId
                     subject := item.subject
                     createdAt := item.createdAt
                     isArchived := item.isArchived
                     matchMethod := if item.gmailMessageId.isSome then .messageId else .noMatch
                     gmailResults := 0
                     gmailMessageId := none
                     threadId := none
                     labelsToAdd := []
                     labelsToRemove := []
                     action := .failed
                     reason := some (failReason e) }, c1, t ++ t1)
              | (.ok addLabelIds, c1, t1) =>
                  match createLabelM cfg.dryRun env c1 opposite with
                  | (.error e, c2, t2) =>
                      ({ frontConversationId := item.frontConversationId
                         subject := item.subject
                         createdAt := item.createdAt
                         isArchived := item.isArchived
                         matchMethod := if item.gmailMessageId.isSome then .messageId else .noMatch
                         gmailResults := 0
                         gmailMessageId := none
                         threadId := none
                         labelsToAdd := []
                         labelsToRemove := []
                         action := .failed
                         reason := some (failReason e) }, c2, t ++ t1 ++ t2)
                  | (.ok removeId, c2, t2) =>
                      match modifyThreadM cfg.dryRun env msg.threadId addLabelIds [removeId] with
                      | (.error e, t3) =>
                          ({ frontConversationId := item.frontConversationId
                             subject := item.subject
                             createdAt := item.createdAt
                             isArchived := item.isArchived
                             matchMethod := if item.gmailMessageId.isSome then .messageId else .noMatch
                             gmailResults := 0
                             gmailMessageId := none
                             threadId := none
                             labelsToAdd := []
                             labelsToRemove := []
                             action := .failed
                             reason := some (failReason e) }, c2, t ++ t1 ++ t2 ++ t3)
                      | (.ok _, t3) =>
                          ({ frontConversationId := item.frontConversationId
                             subject := item.subject
                             createdAt := item.createdAt
                             isArchived := item.isArchived
                             matchMethod := .messageId
                             gmailResults := 1
                             gmailMessageId := some msg.id
                             threadId := some msg.threadId
                             labelsToAdd := item.labels ++ [statusLabel]
                             labelsToRemove := [opposite]
                             action := .applied
                             reason := none }, c2, t ++ t1 ++ t2 ++ t3)

/-- The inner per-item loop of run(): process the items of one batch in
order, threading the label cache, concatenating call traces, and appending
one report row per item. -/
def processSeq (cfg : MigConfig) (env : GmailEnv) :
    Cache → List MigrationItem → List ReportRow × Cache × List Call
  | c, [] => ([], c, [])
  | c, item :: rest =>
      let step := processMigrationItem cfg env c item
      let next := processSeq cfg env step.2.1 rest
      (step.1 :: next.1, next.2.1, step.2.2 ++ next.2.2)

/-- The outer batch loop of run(): batches strictly in sequence.  The
1-second inter-batch pause affects time only and leaves no trace here. -/
def processBatches (cfg : MigConfig) (env : GmailEnv) :
    Cache → List (List MigrationItem) → List ReportRow × Cache × List Call
  | c, [] => ([], c, [])
  | c, b :: bs =>
      let step := processSeq cfg env c b
      let next := processBatches cfg env step.2.1 bs
      (step.1 ++ next.1, next.2.1, step.2.2 ++ next.2.2)

/-- Step 3 of run(): the Set of every item's labels in insertion order, with
both status labels always included. -/
def uniqueLabelsOf (items : List MigrationItem) : List String :=
  addUnique
    (addUnique (items.foldl (fun acc item => item.labels.foldl addUnique acc) [])
      STATUS_LABEL_ARCHIVED)
    STATUS_LABEL_INBOX

/-- Step 3 of run(): under dry-run the reconciliation is only logged, so the
client cache stays empty and no call is made; in live mode ensureLabels
runs against the empty initial cache of the freshly created client. -/
def preStep (cfg : MigConfig) (env : GmailEnv) (uniq : List String) :
    Except String Unit × Cache × List Call :=
  if cfg.dryRun then (.ok (), [], [])
  else
    match ensureLabelsM cfg.dryRun env [] uniq with
    | (.error e, c, t) => (.error e, c, t)
    | (.ok _, c, t) => (.ok (), c, t)

/-- FrontToGmailMigrator.run, from the point where the Front conversations
are in hand: map, reconcile the label taxonomy (live mode only; a failure
there aborts the run before any item is processed), partition into batches,
process every batch.  `none` models a run that never terminates because the
batch loop does not advance; an `Except.error` result models a run aborted
by an escaping exception, with the calls made until then. -/
def runMigration (cfg : MigConfig) (env : GmailEnv) (convs : List FrontConversation) :
    Option (Except String (List ReportRow) × List Call) :=
  let items := convs.map mapConversation
  match preStep cfg env (uniqueLabelsOf items) with
  | (.error e, _, t0) => some (.error e, t0)
  | (.ok _, c0, t0) =>
      match createBatches items cfg.batchSize with
      | none => none
      | some batches =>
          let pb := processBatches cfg env c0 batches
          some (.ok pb.1, t0 ++ pb.2.2)

/-! ## Concrete inputs used to instantiate the theorems -/

/-- Environment with only the Front API key set. -/
def envKeyOnly : EnvVars := { FRONT_API_KEY := some "key" }

/-- Environment with the Front API key set and BATCH_SIZE set to "0". -/
def envBatchZero : EnvVars := { FRONT_API_KEY := some "key", BATCH_SIZE := some "0" }

/-- Scenario A conversation: archived, one tag named Important, one email
message carrying a message-id header. -/
def scenarioConv : FrontConversation :=
  { id := "cnv_1"
    subject := "Hello"
    status := .archived
    tags := ["Important"]
    messages :=
      [{ type := .email
         sender := { handle := "alice@x.example" }
         recipients := [{ handle := "bob@x.example" }]
         messageIdHeader := some "<abc@x.example>" }]
    created_at := 0 }

/-- Conversation with no email-channel message, hence no identifier. -/
def noIdConv : FrontConversation :=
  { id := "cnv_2"
    subject := ""
    status := .unarchived
    tags := []
    messages := []
    created_at := 5 }

/-- Dry-run orchestrator options with the default batch size. -/
def cfgDry : MigConfig := { dryRun := true, skipArchived := false, batchSize := 10 }

/-- Live orchestrator options with the default batch size. -/
def cfgLive : MigConfig := { dryRun := false, skipArchived := false, batchSize := 10 }

/-- Gmail environment where the scenario identifier resolves to message m1
on thread t1, label listing is empty, and creation and mutation succeed. -/
def scenarioEnv : GmailEnv :=
  { searchIds := fun q => if q = "rfc822msgid:abc@x.example" then .ok ["m1"] else .ok []
    message := fun i => if i = "m1" then .ok { id := "m1", threadId := "t1" } else .error "not found"
    labelsList := .ok []
    createId := fun name => .ok ("id-" ++ name)
    modifyThreadRes := fun _ => .ok () }

/-- Label cache already holding every label the scenario item needs. -/
def scenarioCache : Cache :=
  [("front-important", "L1"), ("front/status/archived", "L2"), ("front/status/inbox", "L3")]

/-- Per-attempt outcomes for the retry scenario: a 500 on the first attempt,
a 429 on the second, success on the third. -/
def retryRuns : Nat → Except GmailErr Nat :=
  fun n =>
    if n = 0 then .error { code := none, respStatus := some 500, reason := none }
    else if n = 1 then .error { code := some 429, respStatus := none, reason := none }
    else .ok 7

/-- A Front 401 authentication rejection. -/
def authErr : FrontErr :=
  { status := some 401
    code := none
    message := "Request failed with status code 401"
    dataMessage := some "Token invalid" }

/-- A non-retryable Front client error (a 400 response). -/
def badRequestErr : FrontErr :=
  { status := some 400, code := none, message := "Bad Request", dataMessage := none }

/-- Per-attempt outcomes that always fail with the 400 error. -/
def badRequestRuns : Nat → Except FrontErr Nat := fun _ => .error badRequestErr

/-- Per-attempt outcomes that always fail with the 401 error. -/
def authRuns : Nat → Except FrontErr Nat := fun _ => .error authErr

/-- A fixed jitter draw. -/
def jitter33 : Nat → Nat := fun _ => 33

/-! ## Helper lemmas about the sanitizer -/

theorem mem_dropWhile {p : Char → Bool} {l : List Char} {c : Char}
    (h : c ∈ l.dropWhile p) : c ∈ l := by
  induction l with
  | nil => simp at h
  | cons a t ih =>
      by_cases hp : p a
      · rw [List.dropWhile_cons_of_pos hp] at h
        exact List.mem_cons_of_mem _ (ih h)
      · rwa [List.dropWhile_cons_of_neg hp] at h

theorem dropWhile_head_false {p : Char → Bool} :
    ∀ {l r : List Char} {c : Char}, l.dropWhile p = c :: r → p c = false := by
  intro l
  induction l with
  | nil => intro r c h; simp at h
  | cons a t ih =>
      intro r c h
      by_cases hp : p a
      · rw [List.dropWhile_cons_of_pos hp] at h
        exact ih h
      · rw [List.dropWhile_cons_of_neg hp] at h
        cases h
        simpa using hp

theorem dropWhile_idem (p : Char → Bool) (l : List Char) :
    (l.dropWhile p).dropWhile p = l.dropWhile p := by
  induction l with
  | nil => rfl
  | cons a t ih =>
      by_cases hp : p a
      · rw [List.dropWhile_cons_of_pos hp, ih]
      · rw [List.dropWhile_cons_of_neg hp, List.dropWhile_cons_of_neg hp]

theorem slash_notMem_replaceSlashes (l : List Char) :
    '/' ∉ replaceSlashes l ∧ '\\' ∉ replaceSlashes l := by
  constructor <;> intro h <;> rcases List.mem_map.1 h with ⟨a, -, ha⟩ <;>
    by_cases hc : a = '/' ∨ a = '\\'
  · rw [if_pos hc] at ha; exact absurd ha (by decide)
  · rw [if_neg hc] at ha; exact hc (Or.inl ha)
  · rw [if_pos hc] at ha; exact absurd ha (by decide)
  · rw [if_neg hc] at ha; exact hc (Or.inr ha)

theorem mem_stripCaret {l : List Char} {c : Char} (h : c ∈ stripCaret l) : c ∈ l := by
  cases l with
  | nil => simp [stripCaret] at h
  | cons a t =>
      simp only [stripCaret] at h
      by_cases ha : a = '^'
      · rw [if_pos ha] at h; exact List.mem_cons_of_mem _ h
      · rwa [if_neg ha] at h

theorem mem_trimChars {l : List Char} {c : Char} (h : c ∈ trimChars l) : c ∈ l := by
  unfold trimChars at h
  rw [List.mem_reverse] at h
  have h1 := mem_dropWhile h
  rw [List.mem_reverse] at h1
  exact mem_dropWhile h1

theorem presanitize_no_slash (l : List Char) :
    '/' ∉ presanitize l ∧ '\\' ∉ presanitize l := by
  constructor <;> intro h
  · exact (slash_notMem_replaceSlashes l).1 (mem_stripCaret (mem_trimChars h))
  · exact (slash_notMem_replaceSlashes l).2 (mem_stripCaret (mem_trimChars h))

theorem replaceSlashes_eq_self {l : List Char} (h1 : '/' ∉ l) (h2 : '\\' ∉ l) :
    replaceSlashes l = l := by
  induction l with
  | nil => rfl
  | cons a t ih =>
      have ha : ¬(a = '/' ∨ a = '\\') := by
        rintro (rfl | rfl)
        · exact h1 (List.mem_cons_self _ _)
        · exact h2 (List.mem_cons_self _ _)
      simp only [replaceSlashes, List.map_cons, if_neg ha]
      have := ih (fun hm => h1 (List.mem_cons_of_mem _ hm))
        (fun hm => h2 (List.mem_cons_of_mem _ hm))
      simpa [replaceSlashes] using this

theorem trim_reverse_fixed (t : List Char) :
    (trimChars t).reverse.dropWhile jsWhitespace = (trimChars t).reverse := by
  unfold trimChars
  rw [List.reverse_reverse]
  exact dropWhile_idem _ _

theorem trim_front_dash {s : List Char} (t : List Char) (hs : s = trimChars t) :
    trimChars ("Front-".data ++ s) = "Front-".data ++ s := by
  have edata : "Front-".data = ['F', 'r', 'o', 'n', 't', '-'] := by decide
  have e : "Front-".data ++ s = 'F' :: (['r', 'o', 'n', 't', '-'] ++ s) := by
    rw [edata, List.cons_append]
  have hd : ("Front-".data ++ s).dropWhile jsWhitespace = "Front-".data ++ s := by
    rw [e]
    exact List.dropWhile_cons_of_neg (by decide)
  unfold trimChars
  rw [hd]
  have er : (['F', 'r', 'o', 'n', 't', '-'] : List Char).reverse = ['-', 't', 'n', 'o', 'r', 'F'] := by
    decide
  have hrev : ("Front-".data ++ s).reverse = s.reverse ++ ['-', 't', 'n', 'o', 'r', 'F'] := by
    rw [List.reverse_append, edata, er]

  have hback : (("Front-".data ++ s).reverse).dropWhile jsWhitespace =
      ("Front-".data ++ s).reverse := by
    rw [hrev]
    rcases hsr : s.reverse with _ | ⟨c, r⟩
    · simp only [List.nil_append]
      exact List.dropWhile_cons_of_neg (by decide)
    · have hfix := trim_reverse_fixed t
      rw [← hs, hsr] at hfix
      have hc : jsWhitespace c = false := dropWhile_head_false hfix
      rw [List.cons_append]
      exact List.dropWhile_cons_of_neg (by simp [hc])
  rw [hback, List.reverse_reverse]

theorem reserved_head {r : List Char} (hr : r ∈ reservedLabels) : r.head? ≠ some 'F' := by
  simp only [reservedLabels, reserved, List.map_cons, List.map_nil, List.mem_cons,
    List.not_mem_nil, or_false] at hr
  rcases hr with rfl | rfl | rfl | rfl | rfl | rfl | rfl | rfl <;> decide

theorem upperChars_append (a b : List Char) :
    upperChars (a ++ b) = upperChars a ++ upperChars b := by
  simp [upperChars]

theorem sanitize_prefix_not_reserved (s : List Char) :
    upperChars ("Front-".data ++ s) ∉ reservedLabels := by
  intro h
  have h1 : (upperChars ("Front-".data ++ s)).head? = some 'F' := by
    rw [upperChars_append]
    rw [show upperChars "Front-".data = "FRONT-".data from by decide]
    rfl
  exact reserved_head h h1

theorem isPrefixOf_mem {l1 l2 : List Char} {c : Char} (h : l1.isPrefixOf l2) (hc : c ∈ l1) :
    c ∈ l2 := by
  induction l1 generalizing l2 with
  | nil => simp at hc
  | cons a t ih =>
      cases l2 with
      | nil => simp [List.isPrefixOf] at h
      | cons b t2 =>
          simp only [List.isPrefixOf, Bool.and_eq_true, beq_iff_eq] at h
          rcases List.mem_cons.1 hc with rfl | hc2
          · exact h.1 ▸ List.mem_cons_self _ _
          · exact List.mem_cons_of_mem _ (ih h.2 hc2)

theorem isPrefixOf_front_slash_false {s : List Char} (h : '/' ∉ s) :
    "Front/".data.isPrefixOf s = false := by
  by_cases hp : "Front/".data.isPrefixOf s
  · exact absurd (isPrefixOf_mem hp (by decide)) h
  · simp only [Bool.not_eq_true] at hp
    exact hp

/-- Structure of a single sanitizer application: the output is the
preprocessed core behind either the reserved marker or the namespace
prefix. -/
theorem sanitizeChars_eq (l : List Char) :
    sanitizeChars l = "Front-".data ++ presanitize l ∨
      sanitizeChars l = "Front/".data ++ presanitize l := by
  unfold sanitizeChars
  by_cases hres : upperChars (presanitize l) ∈ reservedLabels
  · exact Or.inl (by rw [if_pos hres])
  · refine Or.inr ?_
    rw [if_neg hres, if_neg ?_]
    rw [isPrefixOf_front_slash_false (presanitize_no_slash l).1]
    simp

/-- The preprocessing pass is the identity on every sanitizer output except
that the namespace slash collapses to the reserved marker. -/
theorem presanitize_sanitized (l : List Char) :
    presanitize (sanitizeChars l) = "Front-".data ++ presanitize l := by
  have hs1 : '/' ∉ presanitize l := (presanitize_no_slash l).1
  have hs2 : '\\' ∉ presanitize l := (presanitize_no_slash l).2
  have hdashdata : "Front-".data = ['F', 'r', 'o', 'n', 't', '-'] := by decide
  have hslashdata : "Front/".data = ['F', 'r', 'o', 'n', 't', '/'] := by decide
  have hrep : replaceSlashes (presanitize l) = presanitize l := replaceSlashes_eq_self hs1 hs2
  have hrepdash : replaceSlashes ("Front-".data ++ presanitize l) =
      "Front-".data ++ presanitize l := by
    unfold replaceSlashes
    rw [List.map_append]
    have h1 : replaceSlashes "Front-".data = "Front-".data := by decide
    exact congrArg₂ (· ++ ·) h1 hrep
  have hrepslash : replaceSlashes ("Front/".data ++ presanitize l) =
      "Front-".data ++ presanitize l := by
    unfold replaceSlashes
    rw [List.map_append]
    have h1 : replaceSlashes "Front/".data = "Front-".data := by decide
    exact congrArg₂ (· ++ ·) h1 hrep
  have hstrip : stripCaret ("Front-".data ++ presanitize l) =
      "Front-".data ++ presanitize l := by
    rw [hdashdata, List.cons_append]
    simp [stripCaret]
  have htrim : trimChars ("Front-".data ++ presanitize l) =
      "Front-".data ++ presanitize l :=
    trim_front_dash (stripCaret (replaceSlashes l)) rfl
  rcases sanitizeChars_eq l with h | h <;> rw [h]
  · calc presanitize ("Front-".data ++ presanitize l)
        = trimChars (stripCaret (replaceSlashes ("Front-".data ++ presanitize l))) := rfl
      _ = trimChars (stripCaret ("Front-".data ++ presanitize l)) := by rw [hrepdash]
      _ = trimChars ("Front-".data ++ presanitize l) := by rw [hstrip]
      _ = "Front-".data ++ presanitize l := htrim
  · calc presanitize ("Front/".data ++ presanitize l)
        = trimChars (stripCaret (replaceSlashes ("Front/".data ++ presanitize l))) := rfl
      _ = trimChars (stripCaret ("Front-".data ++ presanitize l)) := by rw [hrepslash]
      _ = trimChars ("Front-".data ++ presanitize l) := by rw [hstrip]
      _ = "Front-".data ++ presanitize l := htrim

/-- A second sanitizer application always re-wraps the first one: replacing
the namespace slash and nesting again under the prefix. -/
theorem sanitizeChars_of_presanitize {x core : List Char}
    (h : presanitize x = "Front-".data ++ core) (hcore : '/' ∉ core) :
    sanitizeChars x = "Front/Front-".data ++ core := by
  have hnos : '/' ∉ "Front-".data ++ core := by
    intro hmem
    rcases List.mem_append.1 hmem with h1 | h1
    · exact absurd h1 (by decide)
    · exact hcore h1
  unfold sanitizeChars
  simp only [h]
  rw [if_neg (sanitize_prefix_not_reserved core)]
  rw [show ("Front/".data.isPrefixOf ("Front-".data ++ core)) = false from
    isPrefixOf_front_slash_false hnos]
  simp only [Bool.false_eq_true, if_false]
  rw [← List.append_assoc]
  rw [show "Front/".data ++ "Front-".data = "Front/Front-".data from by decide]

/-- A second sanitizer application always re-wraps the first one: replacing
the namespace slash and nesting again under the prefix. -/
theorem sanitizeChars_twice (l : List Char) :
    sanitizeChars (sanitizeChars l) = "Front/Front-".data ++ presanitize l :=
  sanitizeChars_of_presanitize (presanitize_sanitized l) (presanitize_no_slash l).1

theorem sanitizeChars_length (l : List Char) :
    (sanitizeChars l).length = 6 + (presanitize l).length := by
  rcases sanitizeChars_eq l with h | h <;> rw [h, List.length_append] <;> rfl

/-- C3 counterexample: sanitizeLabel is not idempotent as claimed; on the
input "Important" a second application re-wraps the first result. -/
theorem c3_counterexample :
    sanitizeLabel (sanitizeLabel "Important") ≠ sanitizeLabel "Important" ∧
      sanitizeLabel "Important" = "Front-Important" ∧
      sanitizeLabel (sanitizeLabel "Important") = "Front/Front-Important" := by
  refine ⟨?_, by decide, by decide⟩
  decide

/-- C3 (amended): sanitizeLabel is idempotent on no input at all; a second
application always replaces the slash or hyphen marker of the first output
and nests it again, yielding the doubly prefixed string, which is six
characters longer than the first output. -/
theorem c3_sanitize_not_idempotent (s : String) :
    sanitizeLabel (sanitizeLabel s) = ⟨"Front/Front-".data ++ presanitize s.data⟩ ∧
      sanitizeLabel (sanitizeLabel s) ≠ sanitizeLabel s := by
  have e0 : ∀ t : String, (sanitizeLabel t).data = sanitizeChars t.data := fun _ => rfl
  have htwice : (sanitizeLabel (sanitizeLabel s)).data =
      "Front/Front-".data ++ presanitize s.data :=
    (e0 (sanitizeLabel s)).trans
      ((congrArg sanitizeChars (e0 s)).trans (sanitizeChars_twice s.data))
  refine ⟨?_, ?_⟩
  · apply String.ext
    exact htwice
  · intro heq
    have hdata := congrArg String.data heq
    rw [htwice] at hdata
    have hlen := congrArg List.length hdata
    rw [List.length_append] at hlen
    have h1 : ("Front/Front-".data).length = 12 := by decide
    have h2 : ((sanitizeLabel s).data).length = 6 + (presanitize s.data).length :=
      sanitizeChars_length s.data
    omega

/-- C9: on every input whose preprocessed form is case-insensitively
reserved, the sanitizer emits the reserved-prefixed form, whose uppercase is
itself never reserved; in particular the output equals no reserved Gmail
label name. -/
theorem c9_reserved_never_collides (s : String)
    (h : upperChars (presanitize s.data) ∈ reservedLabels) :
    sanitizeLabel s = ⟨"Front-".data ++ presanitize s.data⟩ ∧
      upperChars (sanitizeLabel s).data ∉ reservedLabels ∧
      ∀ r ∈ reserved, sanitizeLabel s ≠ r := by
  have hchars : sanitizeChars s.data = "Front-".data ++ presanitize s.data := by
    unfold sanitizeChars
    rw [if_pos h]
  refine ⟨String.ext hchars, ?_, ?_⟩
  · have hdata : (sanitizeLabel s).data = "Front-".data ++ presanitize s.data := hchars
    rw [hdata]
    exact sanitize_prefix_not_reserved _
  · intro r hr heq
    have hd : r.data ∈ reservedLabels := List.mem_map_of_mem String.data hr
    have hdata := congrArg String.data heq
    have hchars2 : (sanitizeLabel s).data = "Front-".data ++ presanitize s.data := hchars
    rw [hchars2] at hdata
    have hhead : r.data.head? = some 'F' := by
      rw [← hdata]
      rfl
    exact reserved_head hd hhead

/-- C9 witness: the reserved tag name "INBOX" becomes the reserved-prefixed
label "Front-INBOX", which is not the plain nested form and collides with no
reserved name. -/
theorem c9_witness :
    upperChars (presanitize "INBOX".data) ∈ reservedLabels ∧
      sanitizeLabel "INBOX" = "Front-INBOX" ∧
      sanitizeLabel "INBOX" ≠ "Front/INBOX" ∧
      sanitizeLabel "INBOX" ∉ reserved := by
  have h := c9_reserved_never_collides "INBOX" (by decide)
  refine ⟨by decide, ?_, by decide, ?_⟩
  · rw [h.1]
    decide
  · intro hmem
    exact h.2.2 _ hmem rfl

/-! ## C2: the dry-run default of the configuration loaders -/

/-- C2 counterexample: with DRY_RUN unset, the legacy loadConfig (the
variant matching the file-based src/index.ts) returns dryRun = false, not
true as claimed. -/
theorem c2_counterexample :
    envKeyOnly.DRY_RUN = none ∧
      (loadConfigLegacy envKeyOnly).map (fun c => c.migration.dryRun) = .ok false := by
  constructor
  · rfl
  · rfl

/-- C2 (amended): when DRY_RUN is unset, the keychain-era loadConfig
defaults the dry-run flag to true (it returns false only for a
case-insensitive "false"), while the legacy loadConfig kept in the same
source file returns true only for the exact string "true", hence defaults
to false. -/
theorem c2_dry_run_defaults (env : EnvVars) (k : String)
    (hkey : env.FRONT_API_KEY = some k) (hk : k ≠ "") (hdr : env.DRY_RUN = none) :
    (loadConfigKeychain env).map (fun c => c.migration.dryRun) = .ok true ∧
      (loadConfigLegacy env).map (fun c => c.migration.dryRun) = .ok false := by
  constructor
  · simp only [loadConfigKeychain, hkey, Option.getD_some, if_neg hk, Except.map, hdr]
    rfl
  · simp only [loadConfigLegacy, hkey, Option.getD_some, if_neg hk, Except.map, hdr]
    rfl

/-- C2 witness: the two loaders at a concrete environment with the API key
present and DRY_RUN unset. -/
theorem c2_witness :
    (loadConfigKeychain envKeyOnly).map (fun c => c.migration.dryRun) = .ok true ∧
      (loadConfigLegacy envKeyOnly).map (fun c => c.migration.dryRun) = .ok false :=
  c2_dry_run_defaults envKeyOnly "key" rfl (by decide) rfl

/-! ## Batch partitioning lemmas -/

theorem take_min_self {α : Type} (b : Nat) (xs : List α) :
    xs.take (min b xs.length) = xs.take b := by
  rcases le_total b xs.length with h | h
  · rw [min_eq_left h]
  · rw [min_eq_right h, List.take_length, List.take_of_length_le h]

theorem sliceJs_nat {α : Type} (l : List α) (i b : Nat) :
    sliceJs l (i : Int) ((i : Int) + (b : Int)) = (l.drop i).take b := by
  simp only [sliceJs]
  rw [if_neg (by omega : ¬((i : Int) < 0)), if_neg (by omega : ¬((i : Int) + (b : Int) < 0))]
  have hs : (min (i : Int) (l.length : Int)).toNat = min i l.length := by omega
  have he : (min ((i : Int) + (b : Int)) (l.length : Int)).toNat = min (i + b) l.length := by
    omega
  rw [hs, he]
  rcases le_total i l.length with hi | hi
  · rw [min_eq_left hi, List.drop_take]
    have h1 : min (i + b) l.length - i = min b (l.length - i) := by omega
    rw [h1, ← List.length_drop i l]
    exact take_min_self b (l.drop i)
  · rw [min_eq_right hi, min_eq_right (by omega : l.length ≤ i + b)]
    rw [List.take_length, List.drop_length, List.drop_eq_nil_of_le hi, List.take_nil]

theorem cbGo_some_of_pos {α : Type} (items : List α) (bs : Int) (hbs : 1 ≤ bs) :
    ∀ (fuel i : Nat), items.length - i < fuel →
      ∃ r, cbGo items bs fuel (i : Int) = some r ∧ r.join = items.drop i := by
  intro fuel
  induction fuel with
  | zero => intro i h; omega
  | succ fuel ih =>
      intro i h
      by_cases hi : (i : Int) < (items.length : Int)
      · have hilen : i < items.length := by exact_mod_cast hi
        have hbs0 : 0 ≤ bs := by omega
        have hbcast : (bs.toNat : Int) = bs := Int.toNat_of_nonneg hbs0
        have hb1 : 1 ≤ bs.toNat := by omega
        obtain ⟨r, hr, hjoin⟩ := ih (i + bs.toNat) (by omega)
        refine ⟨sliceJs items (i : Int) ((i : Int) + bs) :: r, ?_, ?_⟩
        · simp only [cbGo, if_pos hi]
          have hcast : (i : Int) + bs = ((i + bs.toNat : Nat) : Int) := by push_cast; omega
          rw [hcast, hr]
        · have hslice : sliceJs items (i : Int) ((i : Int) + bs) = (items.drop i).take bs.toNat := by
            have hc : (i : Int) + bs = (i : Int) + (bs.toNat : Int) := by omega
            rw [hc]
            exact sliceJs_nat items i bs.toNat
          simp only [List.join_cons, hslice, hjoin]
          exact List.drop_take_append_drop items i bs.toNat
      · refine ⟨[], ?_, ?_⟩
        · simp only [cbGo]
          rw [if_neg hi]
        · have hle : items.length ≤ i := by omega
          simp [List.drop_eq_nil_of_le hle]

theorem cbGo_none_of_nonpos {α : Type} (items : List α) (bs : Int) (hbs : bs ≤ 0)
    (hne : items ≠ []) : ∀ (fuel : Nat) (i : Int), i ≤ 0 → cbGo items bs fuel i = none := by
  intro fuel
  induction fuel with
  | zero => intro i _; rfl
  | succ fuel ih =>
      intro i hi
      have hlen : 0 < items.length := List.length_pos.2 hne
      have hcond : i < (items.length : Int) := by omega
      simp only [cbGo, if_pos hcond, ih (i + bs) (by omega)]

theorem createBatches_join {α : Type} {items : List α} {bs : Int} {r : List (List α)}
    (h : createBatches items bs = some r) : r.join = items := by
  by_cases hbs : 1 ≤ bs
  · obtain ⟨r2, hr2, hj⟩ := cbGo_some_of_pos items bs hbs (items.length + 1) 0 (by omega)
    have hr2z : cbGo items bs (items.length + 1) 0 = some r2 := hr2
    unfold createBatches at h
    rw [h] at hr2z
    cases hr2z
    simpa using hj
  · push_neg at hbs
    rcases eq_or_ne items [] with rfl | hne
    · have hemp : createBatches ([] : List α) bs = some [] := rfl
      rw [hemp] at h
      cases h
      rfl
    · exfalso
      have hnone := cbGo_none_of_nonpos items bs (by omega) hne (items.length + 1) 0 le_rfl
      unfold createBatches at h
      rw [hnone] at h
      exact Option.noConfusion h

/-- C10: the createBatches loop terminates exactly when the batch size is at
least 1 or the item list is empty; and both configuration loaders hand the
parsed BATCH_SIZE to the orchestrator without validation, so the value 0,
on which the loop diverges for any non-empty input, passes through. -/
theorem c10_batch_termination :
    (∀ (α : Type) (items : List α) (bs : Int),
        (∃ fuel, (cbGo items bs fuel 0).isSome) ↔ (1 ≤ bs ∨ items = [])) ∧
      (loadConfigLegacy envBatchZero).map (fun c => c.migration.batchSize) = .ok (some 0) ∧
      (loadConfigKeychain envBatchZero).map (fun c => c.migration.batchSize) = .ok (some 0) ∧
      (∀ fuel, cbGo [()] (0 : Int) fuel 0 = none) := by
  refine ⟨?_, by rfl, by rfl, ?_⟩
  · intro α items bs
    constructor
    · rintro ⟨fuel, hf⟩
      by_contra hcon
      push_neg at hcon
      obtain ⟨hbs, hne⟩ := hcon
      rw [cbGo_none_of_nonpos items bs (by omega) hne fuel 0 le_rfl] at hf
      simp at hf
    · rintro (hbs | rfl)
      · obtain ⟨r, hr, -⟩ := cbGo_some_of_pos items bs hbs (items.length + 1) 0 (by omega)
        refine ⟨items.length + 1, ?_⟩
        have hrz : cbGo items bs (items.length + 1) 0 = some r := hr
        rw [hrz]
        rfl
      · exact ⟨1, by rfl⟩
  · intro fuel
    exact cbGo_none_of_nonpos [()] 0 le_rfl (by simp) fuel 0 le_rfl

/-! ## Retry policy lemmas -/

theorem frontRetryGo_calls_le {α : Type} (runs : Nat → Except FrontErr α) (jitter : Nat → Nat)
    (m : Nat) : ∀ (fuel attempt : Nat), (frontRetryGo runs jitter m fuel attempt).2.1 ≤ fuel := by
  intro fuel
  induction fuel with
  | zero => intro attempt; simp [frontRetryGo]
  | succ fuel ih =>
      intro attempt
      simp only [frontRetryGo]
      split
      · split
        · simp
        · split
          · simp
          · simpa using Nat.succ_le_succ (ih (attempt + 1))
      · simp

theorem gmailRetryGo_calls_le {α : Type} (runs : Nat → Except GmailErr α) (jitter : Nat → Nat)
    (m : Nat) : ∀ (fuel attempt : Nat), (gmailRetryGo runs jitter m fuel attempt).2.1 ≤ fuel := by
  intro fuel
  induction fuel with
  | zero => intro attempt; simp [gmailRetryGo]
  | succ fuel ih =>
      intro attempt
      simp only [gmailRetryGo]
      split
      · split
        · simp
        · split
          · simp
          · simpa using Nat.succ_le_succ (ih (attempt + 1))
      · simp

/-- C7: every wrapped call runs at most 3 times on both clients; a first
attempt failing with a non-retryable error is never retried and is
re-signalled immediately (a Front 401 as the distinct FRONT_AUTH_401
error); and a call failing with retryable errors on attempts 1 and 2 and
succeeding on attempt 3 returns that success after exactly 3 invocations,
having slept the two exponential-backoff-plus-jitter delays. -/
theorem c7_retry_policy :
    (∀ (α : Type) (runs : Nat → Except FrontErr α) (jitter : Nat → Nat),
        (frontWithRetry runs jitter).2.1 ≤ 3) ∧
      (∀ (α : Type) (runs : Nat → Except GmailErr α) (jitter : Nat → Nat),
        (gmailWithRetry runs jitter).2.1 ≤ 3) ∧
      (∀ (α : Type) (runs : Nat → Except FrontErr α) (jitter : Nat → Nat) (e : FrontErr),
        runs 0 = .error e → frontIsRetriable e = false →
          frontWithRetry runs jitter = (.error (frontGiveUp e), 1, [])) ∧
      (∀ (α : Type) (runs : Nat → Except GmailErr α) (jitter : Nat → Nat) (e : GmailErr),
        runs 0 = .error e → gmailIsRetriable e = false →
          gmailWithRetry runs jitter = (.error e, 1, [])) ∧
      (∀ (α : Type) (runs : Nat → Except GmailErr α) (jitter : Nat → Nat)
          (e0 e1 : GmailErr) (v : α),
        runs 0 = .error e0 → runs 1 = .error e1 → runs 2 = .ok v →
          gmailIsRetriable e0 = true → gmailIsRetriable e1 = true →
          gmailWithRetry runs jitter = (.ok v, 3, [500 + jitter 0, 1000 + jitter 1])) ∧
      (∀ (α : Type) (runs : Nat → Except FrontErr α) (jitter : Nat → Nat) (e : FrontErr),
        runs 0 = .error e → e.status = some 401 → e.code = none →
          frontWithRetry runs jitter =
            (.error ("FRONT_AUTH_401: " ++ frontAuthMsg e), 1, [])) := by
  have hguard : ∀ (e : FrontErr), e.status = some 401 → e.code = none →
      frontIsRetriable e = false := by
    intro e hs hc
    simp [frontIsRetriable, hs, hc]
  refine ⟨?_, ?_, ?_, ?_, ?_, ?_⟩
  · intro α runs jitter
    exact frontRetryGo_calls_le runs jitter 3 3 0
  · intro α runs jitter
    exact gmailRetryGo_calls_le runs jitter 3 3 0
  · intro α runs jitter e h0 hret
    simp only [frontWithRetry, frontRetryGo, h0]
    rw [if_pos (by omega : (0 : Nat) < 3), if_pos (Or.inr hret)]
  · intro α runs jitter e h0 hret
    simp only [gmailWithRetry, gmailRetryGo, h0]
    rw [if_pos (by omega : (0 : Nat) < 3), if_pos (Or.inr hret)]
  · intro α runs jitter e0 e1 v h0 h1 h2 hr0 hr1
    have hn0 : ¬((3 : Nat) ≤ 0 + 1 ∨ gmailIsRetriable e0 = false) := by
      simp [hr0]
    have hn1 : ¬((3 : Nat) ≤ 1 + 1 ∨ gmailIsRetriable e1 = false) := by
      simp [hr1]
    simp only [gmailWithRetry, gmailRetryGo, h0, h1, h2]
    rw [if_pos (by omega : (0 : Nat) < 3), if_neg hn0]
    rw [if_pos (by omega : (1 : Nat) < 3), if_neg hn1]
    rw [if_pos (by omega : (2 : Nat) < 3)]
    norm_num
  · intro α runs jitter e h0 hs hc
    have h3 : frontWithRetry runs jitter = (.error (frontGiveUp e), 1, []) := by
      simp only [frontWithRetry, frontRetryGo, h0]
      rw [if_pos (by omega : (0 : Nat) < 3), if_pos (Or.inr (hguard e hs hc))]
    rw [h3, frontGiveUp, if_pos hs]

/-- C7 witness: the concrete retry scenarios — a 400 is re-thrown after one
attempt, a 401 is wrapped into FRONT_AUTH_401 after one attempt, and a
500/429/success sequence returns the success after exactly three calls with
delays 500 + 33 and 1000 + 33. -/
theorem c7_witness :
    frontWithRetry badRequestRuns jitter33 = (.error "Bad Request", 1, []) ∧
      frontWithRetry authRuns jitter33 = (.error "FRONT_AUTH_401: Token invalid", 1, []) ∧
      gmailWithRetry retryRuns jitter33 = (.ok 7, 3, [533, 1033]) ∧
      (gmailWithRetry retryRuns jitter33).2.1 ≤ 3 := by
  refine ⟨?_, ?_, ?_, ?_⟩
  · have h := c7_retry_policy.2.2.1 Nat badRequestRuns jitter33 badRequestErr rfl (by decide)
    rw [h]
    rfl
  · have h := c7_retry_policy.2.2.2.2.2 Nat authRuns jitter33 authErr rfl rfl rfl
    rw [h]
    rfl
  · have h := c7_retry_policy.2.2.2.2.1 Nat retryRuns jitter33
      { code := none, respStatus := some 500, reason := none }
      { code := some 429, respStatus := none, reason := none } 7 rfl rfl rfl
      (by decide) (by decide)
    rw [h]
    rfl
  · exact c7_retry_policy.2.1 Nat retryRuns jitter33

/-! ## Orchestrator lemmas -/

theorem processItem_id (cfg : MigConfig) (env : GmailEnv) (c : Cache) (item : MigrationItem) :
    (processMigrationItem cfg env c item).1.frontConversationId = item.frontConversationId := by
  unfold processMigrationItem
  rcases h : item.gmailMessageId with _ | mid <;> simp only [h]
  split
  · rfl
  · split <;> try rfl
    split <;> try rfl
    split <;> try rfl
    split <;> try rfl
    split <;> try rfl

theorem lookup_calls (env : GmailEnv) (mid : String) :
    ∀ call ∈ (getMessageByMessageIdM env mid).2, call.isMutating = false := by
  intro call hc
  unfold getMessageByMessageIdM at hc
  rcases hs : env.searchIds ("rfc822msgid:" ++ mid) with e | ls <;> simp only [hs] at hc
  · fin_cases hc <;> rfl
  · rcases ls with _ | ⟨m, ms⟩ <;> simp only at hc
    · fin_cases hc <;> rfl
    · rcases hm : env.message m with e2 | msg <;> simp only [hm] at hc <;> fin_cases hc <;> rfl

theorem processItem_dry_calls (cfg : MigConfig) (env : GmailEnv) (c : Cache)
    (item : MigrationItem) (hdry : cfg.dryRun = true) :
    ∀ call ∈ (processMigrationItem cfg env c item).2.2, call.isMutating = false := by
  unfold processMigrationItem
  rcases h : item.gmailMessageId with _ | mid <;> simp only [h]
  · intro call hc
    simp at hc
  · split
    · intro call hc
      simp at hc
    · rcases hg : getMessageByMessageIdM env mid with ⟨res, t⟩
      have hlk : ∀ call ∈ t, call.isMutating = false := by
        intro call hc
        apply lookup_calls env mid
        rw [hg]
        exact hc
      rcases res with e2 | om
      · simp only [hg]
        exact hlk
      · rcases om with _ | msg
        · simp only [hg]
          exact hlk
        · simp only [hg, hdry, if_true]
          exact hlk

theorem processSeq_ids (cfg : MigConfig) (env : GmailEnv) (c : Cache)
    (items : List MigrationItem) :
    ((processSeq cfg env c items).1).map (fun r => r.frontConversationId) =
      items.map (fun it => it.frontConversationId) := by
  induction items generalizing c with
  | nil => rfl
  | cons item rest ih =>
      simp only [processSeq, List.map_cons, processItem_id]
      rw [ih]

theorem processSeq_append (cfg : MigConfig) (env : GmailEnv) (c : Cache)
    (l1 l2 : List MigrationItem) :
    processSeq cfg env c (l1 ++ l2) =
      ((processSeq cfg env c l1).1 ++
          (processSeq cfg env (processSeq cfg env c l1).2.1 l2).1,
        (processSeq cfg env (processSeq cfg env c l1).2.1 l2).2.1,
        (processSeq cfg env c l1).2.2 ++
          (processSeq cfg env (processSeq cfg env c l1).2.1 l2).2.2) := by
  induction l1 generalizing c with
  | nil => simp [processSeq]
  | cons item rest ih =>
      simp only [List.cons_append, processSeq]
      simp only [List.append_eq]
      rw [ih]
      simp [List.append_assoc]

theorem processBatches_eq (cfg : MigConfig) (env : GmailEnv) (c : Cache)
    (bchs : List (List MigrationItem)) :
    processBatches cfg env c bchs = processSeq cfg env c bchs.join := by
  induction bchs generalizing c with
  | nil => rfl
  | cons b bs ih =>
      simp only [processBatches, ih, List.join_cons, processSeq_append]

theorem processSeq_dry_calls (cfg : MigConfig) (env : GmailEnv) (c : Cache)
    (items : List MigrationItem) (hdry : cfg.dryRun = true) :
    ∀ call ∈ (processSeq cfg env c items).2.2, call.isMutating = false := by
  induction items generalizing c with
  | nil =>
      intro call hc
      simp [processSeq] at hc
  | cons item rest ih =>
      intro call hc
      simp only [processSeq, List.mem_append] at hc
      rcases hc with hc | hc
      · exact processItem_dry_calls cfg env c item hdry call hc
      · exact ih _ call hc

/-- C5: batch partitioning covers every item exactly once in the original
order for any batch size of at least 1; and every completed run (per-item
failures included, since the catch branch also appends a row) appends
exactly one report row per input item, in the exact order the items were
produced by the mapper. -/
theorem c5_batches_cover_and_rows :
    (∀ (α : Type) (items : List α) (bs : Int), 1 ≤ bs →
        ∃ bchs, createBatches items bs = some bchs ∧ bchs.join = items) ∧
      (∀ (cfg : MigConfig) (env : GmailEnv) (convs : List FrontConversation)
          (rows : List ReportRow) (tr : List Call),
        runMigration cfg env convs = some (.ok rows, tr) →
          rows.length = convs.length ∧
            rows.map (fun r => r.frontConversationId) = convs.map (fun cv => cv.id)) := by
  constructor
  · intro α items bs hbs
    obtain ⟨r, hr, hj⟩ := cbGo_some_of_pos items bs hbs (items.length + 1) 0 (by omega)
    exact ⟨r, hr, by simpa using hj⟩
  · intro cfg env convs rows tr hrun
    unfold runMigration at hrun
    dsimp only at hrun
    rcases hp : preStep cfg env (uniqueLabelsOf (convs.map mapConversation)) with ⟨pres, c0, t0⟩
    rw [hp] at hrun
    rcases pres with e | u
    · simp at hrun
    · rcases hcb : createBatches (convs.map mapConversation) cfg.batchSize with _ | bchs
      · rw [hcb] at hrun
        simp at hrun
      · rw [hcb] at hrun
        simp only [Option.some.injEq, Prod.mk.injEq, Except.ok.injEq] at hrun
        obtain ⟨hrows, -⟩ := hrun
        have hjoin : bchs.join = convs.map mapConversation := createBatches_join hcb
        have hmap : rows.map (fun r => r.frontConversationId) = convs.map (fun cv => cv.id) := by
          rw [← hrows, processBatches_eq, hjoin, processSeq_ids, List.map_map]
          rfl
        refine ⟨?_, hmap⟩
        have := congrArg List.length hmap
        simpa using this

/-- C5 witness: part one at the list [10, 20, 30] with batch size 2, and
part two at a concrete two-conversation dry run. -/
theorem c5_witness :
    (createBatches ([10, 20, 30] : List Nat) 2).map (fun b => b.join) = some [10, 20, 30] ∧
      ((1 : Int) ≤ 2) ∧
      (runMigration cfgDry scenarioEnv [scenarioConv, noIdConv]).map
          (fun p => p.1.map List.length) = some (.ok 2) ∧
      (runMigration cfgDry scenarioEnv [scenarioConv, noIdConv]).map
          (fun p => p.1.map (fun rows => rows.map (fun r => r.frontConversationId))) =
        some (.ok ["cnv_1", "cnv_2"]) := by
  refine ⟨?_, by norm_num, ?_, ?_⟩
  · obtain ⟨b, hb, hj⟩ :=
      c5_batches_cover_and_rows.1 Nat [10, 20, 30] 2 (by norm_num)
    rw [hb]
    simp [hj]
  · rcases hr : runMigration cfgDry scenarioEnv [scenarioConv, noIdConv] with _ | ⟨res, tr⟩
    · have hs : (runMigration cfgDry scenarioEnv [scenarioConv, noIdConv]).isSome = true := by
        decide
      rw [hr] at hs
      simp at hs
    · rcases res with e | rows
      · have hok : (runMigration cfgDry scenarioEnv [scenarioConv, noIdConv]).elim false
            (fun p => p.1.toOption.isSome) = true := by decide
        rw [hr] at hok
        simp [Except.toOption] at hok
      · have h2 := (c5_batches_cover_and_rows.2 cfgDry scenarioEnv [scenarioConv, noIdConv]
          rows tr hr).1
        simp [Except.map, h2]
  · rcases hr : runMigration cfgDry scenarioEnv [scenarioConv, noIdConv] with _ | ⟨res, tr⟩
    · have hs : (runMigration cfgDry scenarioEnv [scenarioConv, noIdConv]).isSome = true := by
        decide
      rw [hr] at hs
      simp at hs
    · rcases res with e | rows
      · have hok : (runMigration cfgDry scenarioEnv [scenarioConv, noIdConv]).elim false
            (fun p => p.1.toOption.isSome) = true := by decide
        rw [hr] at hok
        simp [Except.toOption] at hok
      · have h2 := (c5_batches_cover_and_rows.2 cfgDry scenarioEnv [scenarioConv, noIdConv]
          rows tr hr).2
        simp [Except.map, h2, scenarioConv, noIdConv]

/-- C1: in every completed dry run the orchestrator issues no mutating
Gmail call at all (neither label reconciliation nor any per-item mutation);
and every mutating client method, invoked on a client constructed read-only,
returns its distinct Blocked-write error for its operation name before
performing any network call. -/
theorem c1_dry_run_never_mutates :
    (∀ (cfg : MigConfig) (env : GmailEnv) (convs : List FrontConversation)
        (res : Except String (List ReportRow) × List Call),
      cfg.dryRun = true → runMigration cfg env convs = some res →
        ∀ call ∈ res.2, call.isMutating = false) ∧
      (∀ (env : GmailEnv) (c : Cache) (name : String),
        createLabelM true env c name = (.error (blockedWrite "labels.create"), c, [])) ∧
      (∀ (env : GmailEnv) (c : Cache) (names : List String),
        ensureLabelsM true env c names = (.error (blockedWrite "labels.ensure"), c, [])) ∧
      (∀ (env : GmailEnv) (tid : String) (adds rems : List String),
        modifyThreadM true env tid adds rems = (.error (blockedWrite "threads.modify"), [])) ∧
      (∀ (env : GmailEnv) (mid : String) (adds rems : List String),
        modifyMessageM true env mid adds rems = (.error (blockedWrite "messages.modify"), [])) ∧
      (∀ (ids adds rems : List String),
        batchModifyMessagesM true ids adds rems =
          (.error (blockedWrite "messages.batchModify"), [])) := by
  refine ⟨?_, fun env c name => rfl, fun env c names => rfl, fun env tid adds rems => rfl,
    fun env mid adds rems => rfl, fun ids adds rems => rfl⟩
  intro cfg env convs res hdry hrun call hc
  unfold runMigration at hrun
  dsimp only at hrun
  have hpre : preStep cfg env (uniqueLabelsOf (convs.map mapConversation)) = (.ok (), [], []) := by
    simp [preStep, hdry]
  rw [hpre] at hrun
  rcases hcb : createBatches (convs.map mapConversation) cfg.batchSize with _ | bchs
  · rw [hcb] at hrun
    simp at hrun
  · rw [hcb] at hrun
    simp only [Option.some.injEq] at hrun
    rw [← hrun] at hc
    simp only [List.nil_append] at hc
    rw [processBatches_eq] at hc
    exact processSeq_dry_calls cfg env [] bchs.join hdry call hc

/-- C1 witness: the concrete dry run over the scenario conversation makes
only read calls, and each guarded method at a concrete argument returns its
Blocked-write error. -/
theorem c1_witness :
    cfgDry.dryRun = true ∧
      (runMigration cfgDry scenarioEnv [scenarioConv]).map
          (fun res => res.2.all (fun call => !call.isMutating)) = some true ∧
      createLabelM true scenarioEnv [] "Front-Important" =
        (.error "Blocked write: labels.create while in read-only (dry run) mode", [], []) ∧
      modifyThreadM true scenarioEnv "t1" ["L1"] ["L2"] =
        (.error "Blocked write: threads.modify while in read-only (dry run) mode", []) ∧
      ensureLabelsM true scenarioEnv [] ["Front/Status/Inbox"] =
        (.error "Blocked write: labels.ensure while in read-only (dry run) mode", [], []) ∧
      modifyMessageM true scenarioEnv "m1" ["L1"] [] =
        (.error "Blocked write: messages.modify while in read-only (dry run) mode", []) ∧
      batchModifyMessagesM true ["m1"] ["L1"] [] =
        (.error "Blocked write: messages.batchModify while in read-only (dry run) mode", []) := by
  refine ⟨rfl, ?_, ?_, ?_, ?_, ?_, ?_⟩
  · rcases hr : runMigration cfgDry scenarioEnv [scenarioConv] with _ | res
    · have hs : (runMigration cfgDry scenarioEnv [scenarioConv]).isSome = true := by decide
      rw [hr] at hs
      simp at hs
    · have hmut := c1_dry_run_never_mutates.1 cfgDry scenarioEnv [scenarioConv] res rfl hr
      simp only [Option.map_some']
      rw [Option.some.injEq, List.all_eq_true]
      intro call hcall
      simp [hmut call hcall]
  · exact (c1_dry_run_never_mutates.2.1 scenarioEnv [] "Front-Important").trans (by rfl)
  · exact (c1_dry_run_never_mutates.2.2.2.1 scenarioEnv "t1" ["L1"] ["L2"]).trans (by rfl)
  · exact (c1_dry_run_never_mutates.2.2.1 scenarioEnv [] ["Front/Status/Inbox"]).trans (by rfl)
  · exact (c1_dry_run_never_mutates.2.2.2.2.1 scenarioEnv "m1" ["L1"] []).trans (by rfl)
  · exact (c1_dry_run_never_mutates.2.2.2.2.2 ["m1"] ["L1"] []).trans (by rfl)

/-- C6 counterexample: the recorded skip reason is the literal
"missing_message_id", not "missing identifier" as the claim states. -/
theorem c6_counterexample :
    (processMigrationItem cfgDry scenarioEnv [] (mapConversation noIdConv)).1.action =
        .skipped ∧
      (processMigrationItem cfgDry scenarioEnv [] (mapConversation noIdConv)).1.reason ≠
        some "missing identifier" ∧
      (processMigrationItem cfgDry scenarioEnv [] (mapConversation noIdConv)).1.reason =
        some "missing_message_id" := by
  refine ⟨by decide, by decide, by decide⟩

/-- C6 (amended): an item with no cross-system identifier terminates at the
first state with outcome skipped, recorded reason "missing_message_id", an
unchanged label cache, and an empty call trace — not even the identity
lookup runs. -/
theorem c6_missing_identifier (cfg : MigConfig) (env : GmailEnv) (c : Cache)
    (item : MigrationItem) (h : item.gmailMessageId = none) :
    (processMigrationItem cfg env c item).1.action = .skipped ∧
      (processMigrationItem cfg env c item).1.reason = some "missing_message_id" ∧
      (processMigrationItem cfg env c item).1.matchMethod = .noMatch ∧
      (processMigrationItem cfg env c item).2.1 = c ∧
      (processMigrationItem cfg env c item).2.2 = [] := by
  unfold processMigrationItem
  rw [h]
  exact ⟨rfl, rfl, rfl, rfl, rfl⟩

/-- C6 witness: the missing-identifier theorem at the concrete conversation
with no email message. -/
theorem c6_witness :
    (mapConversation noIdConv).gmailMessageId = none ∧
      ((processMigrationItem cfgDry scenarioEnv [] (mapConversation noIdConv)).1.action =
          .skipped ∧
        (processMigrationItem cfgDry scenarioEnv [] (mapConversation noIdConv)).1.reason =
          some "missing_message_id" ∧
        (processMigrationItem cfgDry scenarioEnv [] (mapConversation noIdConv)).1.matchMethod =
          .noMatch ∧
        (processMigrationItem cfgDry scenarioEnv [] (mapConversation noIdConv)).2.1 = [] ∧
        (processMigrationItem cfgDry scenarioEnv [] (mapConversation noIdConv)).2.2 = []) :=
  ⟨by decide, c6_missing_identifier cfgDry scenarioEnv [] (mapConversation noIdConv) (by decide)⟩

/-! ## Status-label lemmas for C4 -/

theorem count_slash_sanitizeChars (l : List Char) : (sanitizeChars l).count '/' ≤ 1 := by
  rcases sanitizeChars_eq l with h | h <;> rw [h, List.count_append]
  · have h1 : ("Front-".data).count '/' = 0 := by decide
    have h2 : (presanitize l).count '/' = 0 := List.count_eq_zero.2 (presanitize_no_slash l).1
    omega
  · have h1 : ("Front/".data).count '/' = 1 := by decide
    have h2 : (presanitize l).count '/' = 0 := List.count_eq_zero.2 (presanitize_no_slash l).1
    omega

theorem sanitizeLabel_ne_status (t : String) :
    sanitizeLabel t ≠ STATUS_LABEL_ARCHIVED ∧ sanitizeLabel t ≠ STATUS_LABEL_INBOX := by
  constructor <;> intro heq
  · have hd : sanitizeChars t.data = STATUS_LABEL_ARCHIVED.data := congrArg String.data heq
    have h1 := count_slash_sanitizeChars t.data
    rw [hd] at h1
    exact absurd h1 (by decide)
  · have hd : sanitizeChars t.data = STATUS_LABEL_INBOX.data := congrArg String.data heq
    have h1 := count_slash_sanitizeChars t.data
    rw [hd] at h1
    exact absurd h1 (by decide)

/-- General form of C4 over any item whose label list avoids the two status
labels (as every mapper-produced item does). -/
theorem processItem_status (cfg : MigConfig) (env : GmailEnv) (c : Cache)
    (item : MigrationItem)
    (hlab : ∀ s ∈ item.labels, s ≠ STATUS_LABEL_ARCHIVED ∧ s ≠ STATUS_LABEL_INBOX)
    (hact : (processMigrationItem cfg env c item).1.action = .dry_run ∨
      (processMigrationItem cfg env c item).1.action = .applied) :
    (STATUS_LABEL_ARCHIVED ∈ (processMigrationItem cfg env c item).1.labelsToAdd ↔
        item.isArchived = true) ∧
      (STATUS_LABEL_INBOX ∈ (processMigrationItem cfg env c item).1.labelsToAdd ↔
        item.isArchived = false) ∧
      (processMigrationItem cfg env c item).1.labelsToRemove =
        [if item.isArchived then STATUS_LABEL_INBOX else STATUS_LABEL_ARCHIVED] := by
  have hA : STATUS_LABEL_ARCHIVED ∉ item.labels := fun hm => (hlab _ hm).1 rfl
  have hI : STATUS_LABEL_INBOX ∉ item.labels := fun hm => (hlab _ hm).2 rfl
  have hne1 : STATUS_LABEL_ARCHIVED ≠ STATUS_LABEL_INBOX := by decide
  have hne2 : STATUS_LABEL_INBOX ≠ STATUS_LABEL_ARCHIVED := by decide
  unfold processMigrationItem at hact ⊢
  rcases h : item.gmailMessageId with _ | mid <;> simp only [h] at hact ⊢
  · rcases hact with h1 | h1 <;> simp at h1
  · by_cases hskip : cfg.skipArchived = true ∧ item.isArchived = true
    · rw [if_pos hskip] at hact ⊢
      rcases hact with h1 | h1 <;> simp at h1
    · rw [if_neg hskip] at hact ⊢
      rcases hg : getMessageByMessageIdM env mid with ⟨e | (_ | msg), t⟩ <;>
        simp only [hg] at hact ⊢
      · rcases hact with h1 | h1 <;> simp at h1
      · rcases hact with h1 | h1 <;> simp at h1
      · by_cases hdry : cfg.dryRun = true
        · rw [if_pos hdry] at hact ⊢
          cases harch : item.isArchived <;> simp only [harch] at hact ⊢
          · refine ⟨?_, ?_, by simp⟩
            · simp [List.mem_append, hA, hne1]
            · simp [List.mem_append, hI]
          · refine ⟨?_, ?_, by simp⟩
            · simp [List.mem_append, hA]
            · simp [List.mem_append, hI, hne2]
        · rw [if_neg hdry] at hact ⊢
          rcases hres : resolveLabelsGo cfg.dryRun env c
              (item.labels ++
                [if item.isArchived = true then STATUS_LABEL_ARCHIVED else STATUS_LABEL_INBOX])
            with ⟨e2 | addIds, c1, t1⟩ <;> simp only [hres] at hact ⊢
          · rcases hact with h1 | h1 <;> simp at h1
          · rcases hcl : createLabelM cfg.dryRun env c1
                (if item.isArchived = true then STATUS_LABEL_INBOX else STATUS_LABEL_ARCHIVED)
              with ⟨e3 | removeId, c2, t2⟩ <;> simp only [hcl] at hact ⊢
            · rcases hact with h1 | h1 <;> simp at h1
            · rcases hmt : modifyThreadM cfg.dryRun env msg.threadId addIds [removeId]
                with ⟨e4 | u, t3⟩ <;> simp only [hmt] at hact ⊢
              · rcases hact with h1 | h1 <;> simp at h1
              · cases harch : item.isArchived <;> simp only [harch] at hact ⊢
                · refine ⟨?_, ?_, by simp⟩
                  · simp [List.mem_append, hA, hne1]
                  · simp [List.mem_append, hI]
                · refine ⟨?_, ?_, by simp⟩
                  · simp [List.mem_append, hA]
                  · simp [List.mem_append, hI, hne2]

/-- C4 counterexample: scenario A as claimed is false on the code — the tag
"Important" is case-insensitively reserved, so the dry-run add set is
["Front-Important", "Front/Status/Archived"], and "Front/Important" is not
in it. -/
theorem c4_counterexample :
    (processMigrationItem cfgDry scenarioEnv [] (mapConversation scenarioConv)).1.action =
        .dry_run ∧
      (processMigrationItem cfgDry scenarioEnv [] (mapConversation scenarioConv)).1.labelsToAdd =
        ["Front-Important", "Front/Status/Archived"] ∧
      "Front/Important" ∉
        (processMigrationItem cfgDry scenarioEnv [] (mapConversation scenarioConv)).1.labelsToAdd ∧
      (processMigrationItem cfgDry scenarioEnv []
            (mapConversation scenarioConv)).1.labelsToRemove =
        ["Front/Status/Inbox"] := by
  exact ⟨by decide, by decide, by decide, by decide⟩

/-- C4 (amended): for every mapper-produced item whose outcome is dry_run
or applied, the add set contains the Archived status label exactly when the
item is archived and the Inbox status label exactly when it is not, and the
remove list is exactly the opposite status label; the scenario-A add set is
["Front-Important", "Front/Status/Archived"] since "Important" collides
case-insensitively with a reserved Gmail name. -/
theorem c4_status_exclusive (cfg : MigConfig) (env : GmailEnv) (c : Cache)
    (conv : FrontConversation)
    (hact : (processMigrationItem cfg env c (mapConversation conv)).1.action = .dry_run ∨
      (processMigrationItem cfg env c (mapConversation conv)).1.action = .applied) :
    (STATUS_LABEL_ARCHIVED ∈
        (processMigrationItem cfg env c (mapConversation conv)).1.labelsToAdd ↔
      (mapConversation conv).isArchived = true) ∧
      (STATUS_LABEL_INBOX ∈
          (processMigrationItem cfg env c (mapConversation conv)).1.labelsToAdd ↔
        (mapConversation conv).isArchived = false) ∧
      (processMigrationItem cfg env c (mapConversation conv)).1.labelsToRemove =
        [if (mapConversation conv).isArchived then STATUS_LABEL_INBOX
          else STATUS_LABEL_ARCHIVED] := by
  apply processItem_status
  · intro s hs
    have e : (mapConversation conv).labels = conv.tags.map sanitizeLabel := rfl
    rw [e] at hs
    rcases List.mem_map.1 hs with ⟨t, -, rfl⟩
    exact sanitizeLabel_ne_status t
  · exact hact

/-- C4 witness: the amended theorem at the scenario-A input — the archived
item has the Archived status label and not the Inbox one in its add set,
and removes exactly the Inbox status label. -/
theorem c4_witness :
    ((processMigrationItem cfgDry scenarioEnv [] (mapConversation scenarioConv)).1.action =
      .dry_run ∨
        (processMigrationItem cfgDry scenarioEnv [] (mapConversation scenarioConv)).1.action =
      .applied) ∧
      STATUS_LABEL_ARCHIVED ∈
        (processMigrationItem cfgDry scenarioEnv [] (mapConversation scenarioConv)).1.labelsToAdd ∧
      STATUS_LABEL_INBOX ∉
        (processMigrationItem cfgDry scenarioEnv [] (mapConversation scenarioConv)).1.labelsToAdd ∧
      (processMigrationItem cfgDry scenarioEnv []
          (mapConversation scenarioConv)).1.labelsToRemove = [STATUS_LABEL_INBOX] := by
  have h := c4_status_exclusive cfgDry scenarioEnv [] scenarioConv (Or.inl (by decide))
  have harch : (mapConversation scenarioConv).isArchived = true := by decide
  refine ⟨Or.inl (by decide), h.1.mpr harch, ?_, ?_⟩
  · intro hm
    have h2 := h.2.1.mp hm
    rw [harch] at h2
    exact absurd h2 (by decide)
  · have h3 := h.2.2
    rw [harch] at h3
    simpa using h3

/-- C8 counterexample: in live mode with an empty cache, processing the
matched scenario item creates a label during item processing (the claim
says an uncached name is logged and skipped with no creation). -/
theorem c8_counterexample :
    Call.labelsCreate "Front-Important" ∈
        (processMigrationItem cfgLive scenarioEnv [] (mapConversation scenarioConv)).2.2 ∧
      (processMigrationItem cfgLive scenarioEnv [] (mapConversation scenarioConv)).1.action =
        .applied := by
  exact ⟨by decide, by decide⟩

theorem createLabelM_cached (env : GmailEnv) (c : Cache) (name : String) (i : String)
    (h : cacheGet c (lowerStr name) = some i) :
    createLabelM false env c name = (.ok i, c, []) := by
  simp [createLabelM, h]

theorem resolveLabelsGo_cached (env : GmailEnv) (c : Cache) :
    ∀ (names ids : List String), cachedIds c names = some ids →
      resolveLabelsGo false env c names = (.ok ids, c, []) := by
  intro names
  induction names with
  | nil =>
      intro ids h
      simp only [cachedIds, Option.some.injEq] at h
      subst h
      rfl
  | cons n rest ih =>
      intro ids h
      simp only [cachedIds] at h
      rcases hg : cacheGet c (lowerStr n) with _ | i <;> rw [hg] at h
      · simp at h
      · rcases hrest : cachedIds c rest with _ | irest <;> rw [hrest] at h
        · simp at h
        · simp only [Option.some.injEq] at h
          subst h
          simp [resolveLabelsGo, createLabelM_cached env c n i hg, ih irest hrest]

/-- C8 (amended): in live mode, for every matched item, each needed label
name is resolved through the label cache when present — a fully cached need
set triggers no labels.create call, leaves the cache unchanged, and
modifyThread is then called with exactly the resolved identifiers.  (A name
absent from the cache is created, not logged and skipped, as the
counterexample shows.) -/
theorem c8_label_resolution (cfg : MigConfig) (env : GmailEnv) (c : Cache)
    (item : MigrationItem) (mid : String) (msg : GmailMsg) (t : List Call)
    (addIds : List String) (removeId : String)
    (hdry : cfg.dryRun = false)
    (hmid : item.gmailMessageId = some mid)
    (hskip : ¬(cfg.skipArchived = true ∧ item.isArchived = true))
    (hlook : getMessageByMessageIdM env mid = (.ok (some msg), t))
    (hadds : cachedIds c (item.labels ++
        [if item.isArchived then STATUS_LABEL_ARCHIVED else STATUS_LABEL_INBOX]) = some addIds)
    (hrem : cacheGet c (lowerStr
        (if item.isArchived then STATUS_LABEL_INBOX else STATUS_LABEL_ARCHIVED)) = some removeId)
    (hmod : env.modifyThreadRes msg.threadId = .ok ()) :
    (processMigrationItem cfg env c item).1.action = .applied ∧
      (processMigrationItem cfg env c item).2.1 = c ∧
      (processMigrationItem cfg env c item).2.2 =
        t ++ [.threadsModify msg.threadId addIds [removeId]] := by
  have hmt : modifyThreadM false env msg.threadId addIds [removeId] =
      (.ok (), [.threadsModify msg.threadId addIds [removeId]]) := by
    simp [modifyThreadM, hmod]
  unfold processMigrationItem
  simp only [hmid]
  rw [if_neg hskip]
  simp only [hlook]
  rw [if_neg (by simp [hdry])]
  rw [hdry]
  simp only [resolveLabelsGo_cached env c _ addIds hadds,
    createLabelM_cached env c _ removeId hrem, hmt]
  simp

/-- C8 witness: the amended theorem at the scenario item with a
pre-populated cache — no creation call, unchanged cache, and the thread
mutation carries the cached identifiers. -/
theorem c8_witness :
    (processMigrationItem cfgLive scenarioEnv scenarioCache
          (mapConversation scenarioConv)).1.action = .applied ∧
      (processMigrationItem cfgLive scenarioEnv scenarioCache
          (mapConversation scenarioConv)).2.1 = scenarioCache ∧
      (processMigrationItem cfgLive scenarioEnv scenarioCache
          (mapConversation scenarioConv)).2.2 =
        [.search "rfc822msgid:abc@x.example", .fetch "m1",
          .threadsModify "t1" ["L1", "L2"] ["L3"]] ∧
      Call.labelsCreate "Front-Important" ∉
        (processMigrationItem cfgLive scenarioEnv scenarioCache
            (mapConversation scenarioConv)).2.2 := by
  have h := c8_label_resolution cfgLive scenarioEnv scenarioCache (mapConversation scenarioConv)
    "abc@x.example" { id := "m1", threadId := "t1" }
    [.search "rfc822msgid:abc@x.example", .fetch "m1"] ["L1", "L2"] "L3"
    rfl (by decide) (by decide) rfl (by decide) (by decide) rfl
  refine ⟨h.1, h.2.1, ?_, ?_⟩
  · rw [h.2.2]
    rfl
  · rw [h.2.2]
    decide

/-- C3 witness: the non-idempotence theorem at the input "Important". -/
theorem c3_witness :
    sanitizeLabel (sanitizeLabel "Important") =
        ⟨"Front/Front-".data ++ presanitize "Important".data⟩ ∧
      sanitizeLabel (sanitizeLabel "Important") ≠ sanitizeLabel "Important" :=
  c3_sanitize_not_idempotent "Important"

/-- C10 witness: with batch size 0 the loop never finishes on a singleton
list for any amount of fuel, while batch size 2 finishes at once. -/
theorem c10_witness :
    cbGo ([()] : List Unit) (0 : Int) 5 0 = none ∧
      (cbGo ([7] : List Nat) (2 : Int) 2 0).isSome = true :=
  ⟨c10_batch_termination.2.2.2 5, by decide⟩

end FrontMigration
